import Mathlib

/-!
Shallow embedding of the ntex-mqtt connection acceptor (`src/service.rs`)
and the v5 topic router (`src/v5/router.rs`), with theorems checking the
natural-language specification against the code.
-/

namespace NtexMqtt

/-! ## Router readiness (`RouterService::poll_ready`, src/v5/router.rs lines 193-206)

A handler slot's readiness poll yields `Poll::Ready(Ok(()))`, `Poll::Pending`,
or `Poll::Ready(Err(e))`; we embed that outcome as `PollReady`. -/

/-- Outcome of polling one handler slot's readiness: mirrors
`Poll<Result<(), E>>` as seen through the `?` operator in `poll_ready`. -/
inductive PollReady (E : Type) where
  | ready : PollReady E
  | pending : PollReady E
  | error : E → PollReady E

/-- True exactly on `PollReady.pending`. -/
def PollReady.isPending {E : Type} : PollReady E → Bool
  | .pending => true
  | _ => false

/-- True exactly on `PollReady.ready`. -/
def PollReady.isReady {E : Type} : PollReady E → Bool
  | .ready => true
  | _ => false

/-- True exactly on `PollReady.error e`. -/
def PollReady.isError {E : Type} : PollReady E → Bool
  | .error _ => true
  | _ => false

/-- The loop body of `RouterService::poll_ready`: walks the handler slots in
order carrying the `not_ready` flag; `hnd.poll_ready(cx)?` returns the error
immediately on `Ready(Err(e))`, records `not_ready = true` on `Pending`, and
moves on otherwise. The second component counts how many slots were polled. -/
def pollReadyLoop {E : Type} : List (PollReady E) → Bool → Nat → PollReady E × Nat
  | [], notReady, polled => (if notReady then .pending else .ready, polled)
  | s :: rest, notReady, polled =>
    match s with
    | .error e => (.error e, polled + 1)
    | .pending => pollReadyLoop rest true (polled + 1)
    | .ready => pollReadyLoop rest notReady (polled + 1)

/-- `RouterService::poll_ready` over the outcomes the non-default slots report
on one readiness check (src/v5/router.rs lines 193-206). -/
def routerPollReady {E : Type} (slots : List (PollReady E)) : PollReady E × Nat :=
  pollReadyLoop slots false 0

theorem pollReadyLoop_no_error {E : Type} (slots : List (PollReady E)) (b : Bool) (k : Nat)
    (h : ∀ s ∈ slots, s.isError = false) :
    pollReadyLoop slots b k =
      ((if (b || slots.any PollReady.isPending) = true then PollReady.pending else .ready),
        k + slots.length) := by
  induction slots generalizing b k with
  | nil => simp [pollReadyLoop]
  | cons s rest ih =>
    have hs : s.isError = false := h s (List.mem_cons_self s rest)
    have hrest : ∀ t ∈ rest, t.isError = false := fun t ht => h t (List.mem_cons_of_mem s ht)
    cases s with
    | error e => simp [PollReady.isError] at hs
    | pending =>
      rw [pollReadyLoop, ih true (k + 1) hrest]
      simp [PollReady.isPending, List.any_cons]
      omega
    | ready =>
      rw [pollReadyLoop, ih b (k + 1) hrest]
      simp [PollReady.isPending, List.any_cons]
      omega

/-- Claim C3: on a readiness check where no slot reports an error, the Router's
`poll_ready` polls every non-default handler slot (the polled count equals the
number of slots, with no early return on a not-ready slot), and the result is
ready if and only if every slot reported ready, not-ready if and only if at
least one slot reported not-ready. -/
theorem routerPollReady_polls_all_and_aggregates {E : Type} (slots : List (PollReady E))
    (h : ∀ s ∈ slots, s.isError = false) :
    (routerPollReady slots).2 = slots.length ∧
      ((routerPollReady slots).1 = .ready ↔ ∀ s ∈ slots, s.isReady = true) ∧
      ((routerPollReady slots).1 = .pending ↔ ∃ s ∈ slots, s.isPending = true) := by
  rw [routerPollReady, pollReadyLoop_no_error slots false 0 h]
  refine ⟨by simp, ?_, ?_⟩
  · constructor
    · intro hr s hs
      by_cases hp : slots.any PollReady.isPending = true
      · simp [hp] at hr
      · cases s with
        | ready => rfl
        | pending =>
          exact absurd (List.any_eq_true.mpr ⟨_, hs, rfl⟩) hp
        | error e => exact absurd (h _ hs) (by simp [PollReady.isError])
    · intro hall
      have hp : slots.any PollReady.isPending = false := by
        rw [List.any_eq_false]
        intro s hs
        have := hall s hs
        cases s with
        | ready => simp [PollReady.isPending]
        | pending => simp [PollReady.isReady] at this
        | error e => simp [PollReady.isReady] at this
      simp [hp]
  · by_cases hp : slots.any PollReady.isPending = true
    · simp [hp]
      exact List.any_eq_true.mp hp
    · have hp2 : slots.any PollReady.isPending = false := by
        simpa using hp
      simp [hp2]
      intro s hs
      simpa using List.any_eq_false.mp hp2 s hs

/-- Witness for C3 at a concrete check: three slots, the middle one pending:
all three are polled and the aggregate is not-ready. -/
theorem routerPollReady_polls_all_and_aggregates_witness :
    (routerPollReady ([.ready, .pending, .ready] : List (PollReady Nat))).2 =
        ([.ready, .pending, .ready] : List (PollReady Nat)).length ∧
      ((routerPollReady ([.ready, .pending, .ready] : List (PollReady Nat))).1 = .ready ↔
        ∀ s ∈ ([.ready, .pending, .ready] : List (PollReady Nat)), s.isReady = true) ∧
      ((routerPollReady ([.ready, .pending, .ready] : List (PollReady Nat))).1 = .pending ↔
        ∃ s ∈ ([.ready, .pending, .ready] : List (PollReady Nat)), s.isPending = true) :=
  routerPollReady_polls_all_and_aggregates _ (by decide)

/-! ## Per-session router construction (`RouterFactory::new_service` and
`RouterFactoryFut::poll`, src/v5/router.rs lines 120-176)

`new_service` starts the default slot's construction and a `join_all` over the
per-route factories; `poll` resolves the default first and only then consumes
the joined per-route results in order, returning the first error. We embed the
resolved outcome of each factory (`Result<HandlerService, E>`) as an
`Except E H` input and the whole construction as a function of those. -/

/-- The per-session router as `RouterFactoryFut::poll` returns it on success:
all per-route handler slots plus the default slot. -/
structure RouterServiceModel (E H : Type) where
  handlers : List H
  default : H
  deriving DecidableEq

/-- The result-collection loop of `RouterFactoryFut::poll` (lines 162-168):
pushes each successful handler in order and returns the first error. -/
def collectHandlers {E H : Type} : List (Except E H) → Except E (List H)
  | [] => .ok []
  | .ok h :: rest =>
    match collectHandlers rest with
    | .ok hs => .ok (h :: hs)
    | .error e => .error e
  | .error e :: _ => .error e

/-- `RouterFactoryFut::poll` as a function of the default slot's resolved
construction result and the joined per-route results: the default is resolved
first (its error returned before any route result is consumed), then the route
results are collected. -/
def routerFactoryPoll {E H : Type} (dres : Except E H) (hres : List (Except E H)) :
    Except E (RouterServiceModel E H) :=
  match dres with
  | .error e => .error e
  | .ok d =>
    match collectHandlers hres with
    | .error e => .error e
    | .ok hs => .ok ⟨hs, d⟩

/-- Observable step of the construction future: the default slot's future
resolving (with success flag), or the per-route result at an index being
consumed from the join. -/
inductive BuildEvent where
  | defaultResolved : Bool → BuildEvent
  | routeConsumed : Nat → BuildEvent
  deriving DecidableEq

/-- Consuming the joined per-route results in order, recording which indices
are consumed: consumption stops at the first error, as in the `for` loop of
`RouterFactoryFut::poll`. -/
def consumeRoutes {E H : Type} : List (Except E H) → Nat → Except E (List H) × List BuildEvent
  | [], _ => (.ok [], [])
  | .ok h :: rest, i =>
    let r := consumeRoutes rest (i + 1)
    (match r.1 with
      | .ok hs => .ok (h :: hs)
      | .error e => .error e,
     .routeConsumed i :: r.2)
  | .error e :: _, i => (.error e, [.routeConsumed i])

/-- `RouterFactoryFut::poll` with its event trace: the default future is
polled to completion first; only when it succeeded are the joined per-route
results consumed. -/
def routerFactoryPollTrace {E H : Type} (dres : Except E H) (hres : List (Except E H)) :
    Except E (RouterServiceModel E H) × List BuildEvent :=
  match dres with
  | .error e => (.error e, [.defaultResolved false])
  | .ok d =>
    let r := consumeRoutes hres 0
    (match r.1 with
      | .ok hs => .ok ⟨hs, d⟩
      | .error e => .error e,
     .defaultResolved true :: r.2)

/-- The first error among the resolved per-route construction results, in
route-registration order. -/
def firstRouteError {E H : Type} (hres : List (Except E H)) : Option E :=
  hres.findSome? fun r =>
    match r with
    | .error e => some e
    | .ok _ => none

/-- True exactly on `Except.ok`. -/
def exceptIsOk {E A : Type} : Except E A → Bool
  | .ok _ => true
  | .error _ => false

theorem collectHandlers_ok_iff {E H : Type} (hres : List (Except E H)) :
    exceptIsOk (collectHandlers hres) = true ↔ ∀ r ∈ hres, exceptIsOk r = true := by
  induction hres with
  | nil => simp [collectHandlers, exceptIsOk]
  | cons r rest ih =>
    cases r with
    | ok h =>
      rw [collectHandlers]
      cases hc : collectHandlers rest with
      | ok hs => simp [hc, exceptIsOk] at ih ⊢; exact ih
      | error e => simp [hc, exceptIsOk] at ih ⊢; exact ih
    | error e => simp [collectHandlers, exceptIsOk]

theorem collectHandlers_length {E H : Type} (hres : List (Except E H)) (hs : List H)
    (h : collectHandlers hres = .ok hs) : hs.length = hres.length := by
  induction hres generalizing hs with
  | nil => simp [collectHandlers] at h; simp [← h]
  | cons r rest ih =>
    cases r with
    | ok hh =>
      rw [collectHandlers] at h
      cases hc : collectHandlers rest with
      | ok hs2 =>
        rw [hc] at h
        cases h
        simp [ih hs2 hc]
      | error e => rw [hc] at h; cases h
    | error e => simp [collectHandlers] at h

theorem collectHandlers_error_iff {E H : Type} (hres : List (Except E H)) (e : E) :
    collectHandlers hres = .error e ↔ firstRouteError hres = some e := by
  induction hres with
  | nil => simp [collectHandlers, firstRouteError]
  | cons r rest ih =>
    cases r with
    | ok h =>
      rw [collectHandlers]
      cases hc : collectHandlers rest with
      | ok hs => simp [hc, firstRouteError, List.findSome?] at ih ⊢; exact ih
      | error e2 => simp [hc, firstRouteError, List.findSome?] at ih ⊢; exact ih
    | error e2 => simp [collectHandlers, firstRouteError, List.findSome?]

theorem firstRouteError_mem {E H : Type} (hres : List (Except E H)) (e : E)
    (h : firstRouteError hres = some e) : Except.error e ∈ hres := by
  induction hres with
  | nil => simp [firstRouteError] at h
  | cons r rest ih =>
    cases r with
    | ok hh =>
      rw [firstRouteError, List.findSome?] at h
      exact List.mem_cons_of_mem _ (ih h)
    | error e2 =>
      rw [firstRouteError, List.findSome?] at h
      simp at h
      simp [h]

/-- Claim C4, as stated: construction fails with `E` if and only if the
default or some route factory fails with `E`. False: with the default
succeeding and two route slots failing with distinct errors `1` and `2`,
the construction fails with `1` (the first error), yet a route slot fails
with `2`, so the backward direction at `2` is violated. -/
theorem routerConstruction_error_iff_claim_false :
    ¬ (∀ (dres : Except Nat Unit) (hres : List (Except Nat Unit)) (e : Nat),
        routerFactoryPoll dres hres = Except.error e ↔
          (dres = Except.error e ∨ Except.error e ∈ hres)) := by
  intro hclaim
  have h2 : routerFactoryPoll (Except.ok ()) [Except.error 1, Except.error 2] = Except.error 2 :=
    (hclaim (Except.ok ()) [Except.error 1, Except.error 2] 2).mpr (by simp)
  simp [routerFactoryPoll, collectHandlers] at h2

/-- Claim C4, amended: per-session router construction succeeds if and only if
the default slot and every route slot construct successfully; if the default
fails, construction fails with the default's error; if the default succeeds
and some route slot fails, construction fails with the first failing route
slot's error (in registration order); every error surfaced is a failing
factory's error; and on success the router holds one handler per route slot
(no partial router is ever returned). -/
theorem routerConstruction_failure_characterization {E H : Type}
    (dres : Except E H) (hres : List (Except E H)) :
    (exceptIsOk (routerFactoryPoll dres hres) = true ↔
      exceptIsOk dres = true ∧ ∀ r ∈ hres, exceptIsOk r = true) ∧
    (∀ e, dres = .error e → routerFactoryPoll dres hres = .error e) ∧
    (∀ d, dres = .ok d → ∀ e, firstRouteError hres = some e →
      routerFactoryPoll dres hres = .error e) ∧
    (∀ e, routerFactoryPoll dres hres = .error e →
      dres = .error e ∨ Except.error e ∈ hres) ∧
    (∀ svc, routerFactoryPoll dres hres = .ok svc → svc.handlers.length = hres.length) := by
  refine ⟨?_, ?_, ?_, ?_, ?_⟩
  · cases dres with
    | error e => simp [routerFactoryPoll, exceptIsOk]
    | ok d =>
      rw [routerFactoryPoll]
      cases hc : collectHandlers hres with
      | ok hs =>
        have hall := (collectHandlers_ok_iff hres).mp (by simp [hc, exceptIsOk])
        exact ⟨fun _ => ⟨rfl, hall⟩, fun _ => rfl⟩
      | error e =>
        have hne : ¬ ∀ r ∈ hres, exceptIsOk r = true := by
          intro hall
          have h4 := (collectHandlers_ok_iff hres).mpr hall
          rw [hc] at h4
          simp [exceptIsOk] at h4
        exact ⟨fun h5 => by simp [exceptIsOk] at h5, fun h5 => absurd h5.2 hne⟩
  · intro e he
    simp [he, routerFactoryPoll]
  · intro d hd e he
    simp [hd, routerFactoryPoll, (collectHandlers_error_iff hres e).mpr he]
  · intro e he
    cases dres with
    | error e2 => simp [routerFactoryPoll] at he; simp [he]
    | ok d =>
      rw [routerFactoryPoll] at he
      cases hc : collectHandlers hres with
      | ok hs => rw [hc] at he; cases he
      | error e2 =>
        rw [hc] at he
        cases he
        exact Or.inr (firstRouteError_mem hres e ((collectHandlers_error_iff hres e).mp hc))
  · intro svc hsvc
    cases dres with
    | error e => simp [routerFactoryPoll] at hsvc
    | ok d =>
      rw [routerFactoryPoll] at hsvc
      cases hc : collectHandlers hres with
      | ok hs =>
        rw [hc] at hsvc
        cases hsvc
        exact collectHandlers_length hres hs hc
      | error e => rw [hc] at hsvc; cases hsvc

theorem consumeRoutes_fst {E H : Type} (hres : List (Except E H)) (i : Nat) :
    (consumeRoutes hres i).1 = collectHandlers hres := by
  induction hres generalizing i with
  | nil => simp [consumeRoutes, collectHandlers]
  | cons r rest ih =>
    cases r with
    | ok h => simp [consumeRoutes, collectHandlers, ih (i + 1)]
    | error e => simp [consumeRoutes, collectHandlers]

/-- Claim C5: the default slot's construction is resolved to completion
(success or failure) before any per-route result is consumed — the trace
starts with the default's resolution event, and when the default fails no
route result is consumed at all and the whole construction fails with the
default's error, whatever the per-route outcomes are; the traced construction
agrees with `routerFactoryPoll`. -/
theorem routerConstruction_default_first {E H : Type}
    (dres : Except E H) (hres : List (Except E H)) :
    (∃ evs, (routerFactoryPollTrace dres hres).2 =
      BuildEvent.defaultResolved (exceptIsOk dres) :: evs) ∧
    (∀ evs i, (routerFactoryPollTrace dres hres).2 = evs →
      evs.head? ≠ some (BuildEvent.routeConsumed i)) ∧
    (∀ e, dres = .error e →
      routerFactoryPollTrace dres hres = (.error e, [.defaultResolved false])) ∧
    (routerFactoryPollTrace dres hres).1 = routerFactoryPoll dres hres := by
  refine ⟨?_, ?_, ?_, ?_⟩
  · cases dres with
    | error e => exact ⟨[], by simp [routerFactoryPollTrace, exceptIsOk]⟩
    | ok d => exact ⟨(consumeRoutes hres 0).2, by simp [routerFactoryPollTrace, exceptIsOk]⟩
  · intro evs i hevs
    cases dres with
    | error e =>
      simp [routerFactoryPollTrace] at hevs
      subst hevs
      simp
    | ok d =>
      simp [routerFactoryPollTrace] at hevs
      subst hevs
      simp
  · intro e he
    simp [he, routerFactoryPollTrace]
  · cases dres with
    | error e => simp [routerFactoryPollTrace, routerFactoryPoll]
    | ok d =>
      rw [routerFactoryPollTrace, routerFactoryPoll, consumeRoutes_fst hres 0]
      cases hc : collectHandlers hres with
      | ok hs => simp
      | error e => simp

/-! ## Publish dispatch (`RouterService::call`, src/v5/router.rs lines 208-214)

`call` runs `self.router.recognize(req.topic_mut())`; the external matcher may
normalize the topic in place and yields the matched pattern's index, and the
message is forwarded to `self.handlers[*idx]` (unchecked indexing) or to the
default slot. The matcher is external, so it is a parameter: a function from
the topic to an optional matched index paired with the (possibly normalized)
topic. -/

/-- An inbound publish message: topic plus payload. -/
structure Publish where
  topic : String
  payload : String
  deriving DecidableEq

/-- A per-session handler slot's `call`: one publish in, a result out. -/
def HandlerServiceM (E : Type) := Publish → Except E Unit

/-- What one `RouterService::call` did: `handled (some idx) res` means the
slot at `idx` was invoked exactly once, with result `res`; `handled none res`
means the default slot was invoked; `panicked` models the out-of-bounds
unchecked indexing `self.handlers[*idx]`. -/
inductive DispatchResult (E : Type) where
  | handled : Option Nat → Except E Unit → DispatchResult E
  | panicked : DispatchResult E

/-- `RouterService::call` with the external matcher `m` as a parameter:
`m topic = some (idx, t)` when the compiled table recognizes the topic,
normalized in place to `t`. -/
def routerServiceCall {E : Type} (m : String → Option (Nat × String))
    (handlers : List (HandlerServiceM E)) (dflt : HandlerServiceM E)
    (req : Publish) : DispatchResult E :=
  match m req.topic with
  | some (idx, t) =>
    match handlers.get? idx with
    | some h => .handled (some idx) (h { req with topic := t })
    | none => .panicked
  | none => .handled none (dflt req)

/-- Claim C6: when the compiled matcher recognizes the publish's (possibly
normalized) topic at index `idx` (in bounds), the Router forwards the message
— with the normalized topic — to the handler slot at `idx`, invoking it
exactly once and returning its result unchanged; when no registered pattern
matches, the message is delivered to the default slot. -/
theorem routerDispatch_matched_and_default {E : Type} (m : String → Option (Nat × String))
    (handlers : List (HandlerServiceM E)) (dflt : HandlerServiceM E) (req : Publish) :
    (∀ idx t, m req.topic = some (idx, t) →
      ∀ h : idx < handlers.length,
        routerServiceCall m handlers dflt req =
          .handled (some idx) (handlers.get ⟨idx, h⟩ { req with topic := t })) ∧
    (m req.topic = none →
      routerServiceCall m handlers dflt req = .handled none (dflt req)) := by
  constructor
  · intro idx t hm h
    rw [routerServiceCall, hm]
    simp only [List.get?_eq_get h]
  · intro hm
    rw [routerServiceCall, hm]

/-! ## Router builder (`Router::new`, `Router::resource`,
`Router::default_resource`, src/v5/router.rs lines 42-84)

`resource` registers the pattern at index `handlers.len()` and then pushes the
factory; `new` installs the built-in default: an infallible `fn_service` that
acks every publish, with `map_init_err` sending an init error into a
diverging branch. A factory's per-session construction outcome is embedded as
`InitResult`: success, error, or that diverging branch. -/

/-- Outcome of invoking a handler factory for one session: mirrors
`Result<HandlerService, E>`, with `panicked` for a factory whose init-error
mapping diverges. -/
inductive InitResult (E H : Type) where
  | ok : H → InitResult E H
  | error : E → InitResult E H
  | panicked : InitResult E H

/-- A handler factory at the table level: session state in, per-session
handler slot out. -/
def HandlerFactoryM (S E : Type) := S → InitResult E (HandlerServiceM E)

/-- The `fn_service(|p| { log warn; ok(()) })` factory inside `Router::new`:
its per-session construction is infallible (init error type `()`, never
produced), and the produced service acks every publish. -/
def fnServiceNewService {S E : Type} (_ : S) : Except Unit (HandlerServiceM E) :=
  .ok fun _ => .ok ()

/-- The built-in default factory of `Router::new`: the `fn_service` above with
`map_init_err` sending any init error into a diverging branch, embedded as
`InitResult.panicked`. -/
def builtinDefaultFactory {S E : Type} : HandlerFactoryM S E := fun s =>
  match fnServiceNewService (E := E) s with
  | .ok svc => .ok svc
  | .error _ => .panicked

/-- The `Router` builder: registered patterns with their indices, the route
factories, and the default factory. -/
structure Router (S E : Type) where
  paths : List (String × Nat)
  handlers : List (HandlerFactoryM S E)
  default : HandlerFactoryM S E

/-- `Router::new`: no routes, built-in default. -/
def Router.new {S E : Type} : Router S E :=
  ⟨[], [], builtinDefaultFactory⟩

/-- `Router::resource`: registers `address` at index `handlers.len()`, then
pushes the factory. -/
def Router.resource {S E : Type} (r : Router S E) (address : String)
    (f : HandlerFactoryM S E) : Router S E :=
  { r with
    paths := r.paths ++ [(address, r.handlers.length)],
    handlers := r.handlers ++ [f] }

/-- `Router::default_resource`: replaces the default factory. -/
def Router.default_resource {S E : Type} (r : Router S E)
    (f : HandlerFactoryM S E) : Router S E :=
  { r with default := f }

/-- One builder call made while configuring a router. -/
inductive BuildStep (S E : Type) where
  | resource : String → HandlerFactoryM S E → BuildStep S E
  | default_resource : HandlerFactoryM S E → BuildStep S E

/-- True exactly on `BuildStep.default_resource`. -/
def BuildStep.isDefaultResource {S E : Type} : BuildStep S E → Bool
  | .default_resource _ => true
  | _ => false

/-- A router configured from `Router::new` by a sequence of builder calls. -/
def buildRouter {S E : Type} (steps : List (BuildStep S E)) : Router S E :=
  steps.foldl
    (fun r st =>
      match st with
      | .resource a f => r.resource a f
      | .default_resource f => r.default_resource f)
    Router.new

/-- The registered-index invariant: every registered pattern's index is below
the number of route factories. -/
def pathsBounded {S E : Type} (r : Router S E) : Prop :=
  ∀ p ∈ r.paths, p.2 < r.handlers.length

/-- The compiled matcher over the registered patterns, abstracting the
external pattern matcher by a per-pattern match predicate: whatever its
precedence rule, an index it returns belongs to some registered pattern. -/
def compiledRecognize (paths : List (String × Nat)) (mtch : String → String → Bool)
    (topic : String) : Option Nat :=
  (paths.find? fun p => mtch p.1 topic).map Prod.snd

theorem buildRouter_pathsBounded {S E : Type} (steps : List (BuildStep S E)) :
    pathsBounded (buildRouter steps) := by
  suffices h : ∀ r : Router S E, pathsBounded r →
      pathsBounded (steps.foldl
        (fun r st =>
          match st with
          | .resource a f => r.resource a f
          | .default_resource f => r.default_resource f) r) by
    exact h Router.new (by intro p hp; simp [Router.new] at hp)
  induction steps with
  | nil => intro r hr; exact hr
  | cons st rest ih =>
    intro r hr
    rw [List.foldl_cons]
    refine ih _ ?_
    cases st with
    | resource a f =>
      intro p hp
      simp [Router.resource] at hp ⊢
      rcases hp with hp | hp
      · exact Nat.lt_succ_of_lt (hr p hp)
      · simp [hp]
    | default_resource f =>
      intro p hp
      simpa [Router.default_resource] using hr p hp

theorem compiledRecognize_mem {S E : Type} (r : Router S E) (mtch : String → String → Bool)
    (topic : String) (idx : Nat)
    (h : compiledRecognize r.paths mtch topic = some idx) :
    ∃ p ∈ r.paths, p.2 = idx := by
  rw [compiledRecognize, Option.map_eq_some'] at h
  obtain ⟨p, hp, hidx⟩ := h
  exact ⟨p, List.mem_of_find?_eq_some hp, hidx⟩

/-- Claim C9: in a router configured through `resource`, every registered
pattern's index is below the route-factory count; hence on a session whose
handler vector has one slot per route factory, any index the compiled matcher
returns is strictly below the session handler vector's length, and the
unchecked indexing in `RouterService::call` never goes out of bounds
(dispatch never reaches the `panicked` outcome). -/
theorem routerDispatch_index_in_bounds {S E : Type} (steps : List (BuildStep S E))
    (mtch : String → String → Bool) (norm : String → String)
    (hs : List (HandlerServiceM E)) (dflt : HandlerServiceM E) (req : Publish)
    (hlen : hs.length = (buildRouter steps).handlers.length) :
    pathsBounded (buildRouter steps) ∧
    (∀ topic idx, compiledRecognize (buildRouter steps).paths mtch topic = some idx →
      idx < hs.length) ∧
    routerServiceCall
        (fun t => (compiledRecognize (buildRouter steps).paths mtch t).map fun i => (i, norm t))
        hs dflt req ≠ .panicked := by
  have hbound : pathsBounded (buildRouter (S := S) (E := E) steps) :=
    buildRouter_pathsBounded steps
  have hidx : ∀ topic idx,
      compiledRecognize (buildRouter (S := S) (E := E) steps).paths mtch topic = some idx →
      idx < hs.length := by
    intro topic idx h
    obtain ⟨p, hp, hpidx⟩ := compiledRecognize_mem _ mtch topic idx h
    rw [hlen, ← hpidx]
    exact hbound p hp
  refine ⟨hbound, hidx, ?_⟩
  rw [routerServiceCall]
  cases hm : compiledRecognize (buildRouter (S := S) (E := E) steps).paths mtch req.topic with
  | none => simp
  | some idx =>
    have hlt : idx < hs.length := hidx req.topic idx hm
    simp only [Option.map_some']
    rw [List.get?_eq_get hlt]
    simp

/-- Witness for C9: a router with one registered route and a one-slot session
handler vector; every registered index is in bounds and dispatch cannot hit
the out-of-bounds branch. -/
theorem routerDispatch_index_in_bounds_witness :
    pathsBounded (buildRouter
        ([.resource "sensors" fun _ => .ok fun _ => .ok ()] : List (BuildStep Unit Nat))) ∧
    (∀ topic idx, compiledRecognize
        (buildRouter ([.resource "sensors" fun _ => .ok fun _ => .ok ()] :
          List (BuildStep Unit Nat))).paths (fun p t => p == t) topic = some idx →
      idx < ([fun _ => .ok ()] : List (HandlerServiceM Nat)).length) ∧
    routerServiceCall
        (fun t => (compiledRecognize
          (buildRouter ([.resource "sensors" fun _ => .ok fun _ => .ok ()] :
            List (BuildStep Unit Nat))).paths (fun p t => p == t) t).map fun i => (i, t))
        ([fun _ => .ok ()] : List (HandlerServiceM Nat)) (fun _ => .ok ())
        ⟨"sensors", "21"⟩ ≠ .panicked :=
  routerDispatch_index_in_bounds
    ([.resource "sensors" fun _ => .ok fun _ => .ok ()] : List (BuildStep Unit Nat))
    (fun p t => p == t) (fun t => t) ([fun _ => .ok ()] : List (HandlerServiceM Nat))
    (fun _ => .ok ()) ⟨"sensors", "21"⟩ rfl

/-- Claim C10: for a router whose default was never replaced through
`default_resource`, the default factory is the built-in one, and its
per-session construction always succeeds with the ack-everything service —
the diverging branch installed by `map_init_err` is unreachable because the
`fn_service` factory never fails to initialize. -/
theorem builtinDefault_never_panics {S E : Type} (steps : List (BuildStep S E)) (s : S)
    (hnd : steps.all (fun st => !st.isDefaultResource) = true) :
    (buildRouter steps).default = builtinDefaultFactory ∧
    (∃ svc, (buildRouter steps).default s = InitResult.ok svc ∧ ∀ p, svc p = Except.ok ()) ∧
    (buildRouter steps).default s ≠ InitResult.panicked := by
  have haux : ∀ l : List (BuildStep S E), l.all (fun st => !st.isDefaultResource) = true →
      ∀ r : Router S E, r.default = builtinDefaultFactory →
      (l.foldl
        (fun r st =>
          match st with
          | .resource a f => r.resource a f
          | .default_resource f => r.default_resource f) r).default = builtinDefaultFactory := by
    intro l
    induction l with
    | nil => intro _ r hr; exact hr
    | cons st rest ih =>
      intro hall r hr
      rw [List.all_cons, Bool.and_eq_true] at hall
      rw [List.foldl_cons]
      cases st with
      | resource a f => exact ih hall.2 _ (by simpa [Router.resource] using hr)
      | default_resource f => simp [BuildStep.isDefaultResource] at hall
  have hdef : (buildRouter (S := S) (E := E) steps).default = builtinDefaultFactory :=
    haux steps hnd Router.new rfl
  refine ⟨hdef, ?_, ?_⟩
  · exact ⟨fun _ => .ok (), by rw [hdef]; exact ⟨rfl, fun p => rfl⟩⟩
  · rw [hdef]
    intro hcontra
    simp [builtinDefaultFactory, fnServiceNewService] at hcontra

/-- Witness for C10: a router configured with one route and no
`default_resource` call keeps the built-in default, whose per-session
construction succeeds and never reaches the diverging branch. -/
theorem builtinDefault_never_panics_witness :
    (buildRouter ([.resource "sensors" fun _ => .ok fun _ => .ok ()] :
        List (BuildStep Unit Nat))).default = builtinDefaultFactory ∧
    (∃ svc, (buildRouter ([.resource "sensors" fun _ => .ok fun _ => .ok ()] :
        List (BuildStep Unit Nat))).default () = InitResult.ok svc ∧
      ∀ p, svc p = Except.ok ()) ∧
    (buildRouter ([.resource "sensors" fun _ => .ok fun _ => .ok ()] :
        List (BuildStep Unit Nat))).default () ≠ InitResult.panicked :=
  builtinDefault_never_panics
    ([.resource "sensors" fun _ => .ok fun _ => .ok ()] : List (BuildStep Unit Nat)) () rfl

/-! ## Connection acceptor (`MqttHandler::call`, src/service.rs)

Two call bodies are embedded: the plain `IoBoxed` impl (lines 162-182), which
awaits the handshake, then handler construction, then the Dispatcher; and the
`(IoBoxed, Option<Sleep>)` impl (lines 249-297), which, when a delay is
present, runs `select(delay, handshake-then-new_service)` and treats the delay
winning as an ordinary disconnect (`Ok(())` after a warning).

Futures are embedded by their resolved value plus a completion time in
abstract ticks: the handshake resolves at `hsTime`, handler construction takes
`nsTime` more, the delay fires at tick `d`. `select` polls the delay first, so
the delay wins exactly when `d ≤` the raced future's completion time. The
Dispatcher is external: a parameter from the handed-off stream, codec, handler,
keepalive and disconnect timeout to the loop's result. -/

/-- Visible action of one acceptor call: the handshake-timeout warning, the
constructed handler's `new_service` result being used, and the Dispatcher
being invoked with the stream and codec. -/
inductive AcceptEvent where
  | warnedTimeout : AcceptEvent
  | handlerUsed : AcceptEvent
  | dispatcherInvoked : AcceptEvent
  deriving DecidableEq

/-- Resolved value of the raced future of lines 258-269: the handshake's
result, then — on handshake success — `handler.new_service(st)`, yielding
`(io, codec, ka, handler)` or the first error. -/
def innerResult {E I B T H : Type} (hs : Except E (I × B × T × Nat))
    (mk : T → Except E H) : Except E (I × B × Nat × H) :=
  match hs with
  | .error e => .error e
  | .ok (io, codec, st, ka) =>
    match mk st with
    | .error e => .error e
    | .ok h => .ok (io, codec, ka, h)

/-- Completion tick of the raced future: the handshake's completion tick,
plus the handler-construction ticks when the handshake succeeded. -/
def innerTime {E I B T : Type} (hs : Except E (I × B × T × Nat))
    (hsTime nsTime : Nat) : Nat :=
  match hs with
  | .error _ => hsTime
  | .ok _ => hsTime + nsTime

/-- `MqttHandler::call` for `IoBoxed` (src/service.rs lines 162-182): await
the handshake (propagating its error), build the per-connection handler
(propagating its error), then hand stream, codec and handler to the
Dispatcher with the negotiated keepalive and the configured disconnect
timeout, returning the Dispatcher's result. -/
def mqttHandlerCallIoBoxed {E I B T H : Type} (hs : Except E (I × B × T × Nat))
    (mk : T → Except E H) (disp : I → B → H → Nat → Nat → Except E Unit)
    (dt : Nat) : Except E Unit × List AcceptEvent :=
  match hs with
  | .error e => (.error e, [])
  | .ok (io, codec, st, ka) =>
    match mk st with
    | .error e => (.error e, [])
    | .ok h => (disp io codec h ka dt, [.handlerUsed, .dispatcherInvoked])

/-- `MqttHandler::call` for `(IoBoxed, Option<Sleep>)` (src/service.rs lines
249-297). With a delay, `select` races the delay against the combined
handshake-then-`new_service` future; the delay winning logs a warning and
returns `Ok(())`; otherwise the raced future's error propagates or its
`(io, codec, ka, handler)` goes to the Dispatcher. Without a delay, the body
is the unconditional sequence of lines 281-289 and 292-295. -/
def mqttHandlerCallDelay {E I B T H : Type} (delay : Option Nat) (hsTime nsTime : Nat)
    (hs : Except E (I × B × T × Nat)) (mk : T → Except E H)
    (disp : I → B → H → Nat → Nat → Except E Unit)
    (dt : Nat) : Except E Unit × List AcceptEvent :=
  match delay with
  | some d =>
    if d ≤ innerTime hs hsTime nsTime then
      (.ok (), [.warnedTimeout])
    else
      match innerResult hs mk with
      | .error e => (.error e, [])
      | .ok (io, codec, ka, h) => (disp io codec h ka dt, [.handlerUsed, .dispatcherInvoked])
  | none =>
    match hs with
    | .error e => (.error e, [])
    | .ok (io, codec, st, ka) =>
      match mk st with
      | .error e => (.error e, [])
      | .ok h => (disp io codec h ka dt, [.handlerUsed, .dispatcherInvoked])

/-- Claim C1: when a deadline is present and fires at or before the raced
future's completion, the call warns, resolves to `Ok(())`, never uses the
handler factory's `new_service` result, and never invokes the Dispatcher. -/
theorem acceptor_deadline_first_is_silent_success {E I B T H : Type}
    (d hsTime nsTime : Nat) (hs : Except E (I × B × T × Nat)) (mk : T → Except E H)
    (disp : I → B → H → Nat → Nat → Except E Unit) (dt : Nat)
    (hfirst : d ≤ innerTime hs hsTime nsTime) :
    (mqttHandlerCallDelay (some d) hsTime nsTime hs mk disp dt).1 = .ok () ∧
    .warnedTimeout ∈ (mqttHandlerCallDelay (some d) hsTime nsTime hs mk disp dt).2 ∧
    .handlerUsed ∉ (mqttHandlerCallDelay (some d) hsTime nsTime hs mk disp dt).2 ∧
    .dispatcherInvoked ∉ (mqttHandlerCallDelay (some d) hsTime nsTime hs mk disp dt).2 := by
  rw [mqttHandlerCallDelay]
  simp [hfirst]

/-- Witness for C1: a handshake resolving at tick 5 raced against a deadline
at tick 1 yields silent success with no handler use and no dispatch. -/
theorem acceptor_deadline_first_is_silent_success_witness :
    (mqttHandlerCallDelay (E := Nat) (I := Unit) (B := Unit) (T := Unit) (H := Unit)
        (some 1) 5 0 (.ok ((), (), (), 30)) (fun _ => .ok ())
        (fun _ _ _ _ _ => .ok ()) 3).1 = .ok () ∧
    .warnedTimeout ∈ (mqttHandlerCallDelay (E := Nat) (I := Unit) (B := Unit) (T := Unit)
        (H := Unit) (some 1) 5 0 (.ok ((), (), (), 30)) (fun _ => .ok ())
        (fun _ _ _ _ _ => .ok ()) 3).2 ∧
    .handlerUsed ∉ (mqttHandlerCallDelay (E := Nat) (I := Unit) (B := Unit) (T := Unit)
        (H := Unit) (some 1) 5 0 (.ok ((), (), (), 30)) (fun _ => .ok ())
        (fun _ _ _ _ _ => .ok ()) 3).2 ∧
    .dispatcherInvoked ∉ (mqttHandlerCallDelay (E := Nat) (I := Unit) (B := Unit) (T := Unit)
        (H := Unit) (some 1) 5 0 (.ok ((), (), (), 30)) (fun _ => .ok ())
        (fun _ _ _ _ _ => .ok ()) 3).2 :=
  acceptor_deadline_first_is_silent_success 1 5 0 (.ok ((), (), (), 30)) (fun _ => .ok ())
    (fun _ _ _ _ _ => .ok ()) 3 (by decide)

/-- Claim C2, as stated: with a deadline present, a handshake completing
strictly before the deadline always reaches Dispatcher handoff, regardless of
how long handler construction takes. False: with the handshake done at tick 1,
the deadline at tick 2 and handler construction taking 10 more ticks — all
stages succeeding — the `select` covers handler construction too, the deadline
wins, and the call returns `Ok(())` without ever invoking the Dispatcher. -/
theorem acceptor_handshake_first_claim_false :
    ¬ (∀ (d hsTime nsTime : Nat) (hs : Except Nat (Unit × Unit × Unit × Nat))
        (mk : Unit → Except Nat Unit) (disp : Unit → Unit → Unit → Nat → Nat → Except Nat Unit)
        (dt : Nat), exceptIsOk hs = true → (∀ st, exceptIsOk (mk st) = true) → hsTime < d →
        AcceptEvent.dispatcherInvoked ∈
          (mqttHandlerCallDelay (some d) hsTime nsTime hs mk disp dt).2) := by
  intro hclaim
  have h2 := hclaim 2 1 10 (.ok ((), (), (), 30)) (fun _ => .ok ()) (fun _ _ _ _ _ => .ok ()) 0
    (by decide) (fun st => rfl) (by decide)
  simp [mqttHandlerCallDelay, innerTime] at h2

/-- Claim C2, amended: with a deadline present, the deadline is raced against
the combined handshake-then-handler-construction future, not the handshake
alone. The Dispatcher is invoked exactly when that combined future completes
strictly before the deadline fires and resolves successfully, and in that case
the call proceeds with its stream, codec, keepalive and handler to the
Dispatcher and returns the Dispatcher's result; the deadline can therefore cut
handler construction short even after the handshake has completed. -/
theorem acceptor_deadline_races_combined_future {E I B T H : Type}
    (d hsTime nsTime : Nat) (hs : Except E (I × B × T × Nat)) (mk : T → Except E H)
    (disp : I → B → H → Nat → Nat → Except E Unit) (dt : Nat) :
    (AcceptEvent.dispatcherInvoked ∈
        (mqttHandlerCallDelay (some d) hsTime nsTime hs mk disp dt).2 ↔
      innerTime hs hsTime nsTime < d ∧ exceptIsOk (innerResult hs mk) = true) ∧
    (∀ io codec ka h, innerTime hs hsTime nsTime < d →
      innerResult hs mk = .ok (io, codec, ka, h) →
      mqttHandlerCallDelay (some d) hsTime nsTime hs mk disp dt =
        (disp io codec h ka dt, [.handlerUsed, .dispatcherInvoked])) := by
  constructor
  · rw [mqttHandlerCallDelay]
    by_cases hle : d ≤ innerTime hs hsTime nsTime
    · simp [hle]
    · have hlt : innerTime hs hsTime nsTime < d := by omega
      cases hr : innerResult hs mk with
      | error e => simp [hle, hr, exceptIsOk]
      | ok v =>
        obtain ⟨io, codec, ka, h⟩ := v
        simp [hle, hr, exceptIsOk, hlt]
  · intro io codec ka h hlt hr
    rw [mqttHandlerCallDelay, if_neg (by omega), hr]

/-- Claim C7: on the plain `IoBoxed` call, a successful handshake followed by
a handler construction failure with error `e` resolves the call to
`Err(e)`; the handler result is never used and the Dispatcher is never
invoked (the handshake's stream and codec are discarded, no retry). -/
theorem acceptor_handler_init_error_propagates {E I B T H : Type}
    (hs : Except E (I × B × T × Nat)) (mk : T → Except E H)
    (disp : I → B → H → Nat → Nat → Except E Unit) (dt : Nat)
    (io : I) (codec : B) (st : T) (ka : Nat) (e : E)
    (hhs : hs = .ok (io, codec, st, ka)) (hmk : mk st = .error e) :
    (mqttHandlerCallIoBoxed hs mk disp dt).1 = .error e ∧
    .handlerUsed ∉ (mqttHandlerCallIoBoxed hs mk disp dt).2 ∧
    .dispatcherInvoked ∉ (mqttHandlerCallIoBoxed hs mk disp dt).2 := by
  rw [hhs, mqttHandlerCallIoBoxed]
  simp [hmk]

/-- Witness for C7: a successful handshake whose session's handler factory
fails with error 7 makes the call resolve to that error with no dispatch. -/
theorem acceptor_handler_init_error_propagates_witness :
    (mqttHandlerCallIoBoxed (E := Nat) (I := Unit) (B := Unit) (T := Unit) (H := Unit)
        (.ok ((), (), (), 30)) (fun _ => .error 7) (fun _ _ _ _ _ => .ok ()) 3).1 = .error 7 ∧
    .handlerUsed ∉ (mqttHandlerCallIoBoxed (E := Nat) (I := Unit) (B := Unit) (T := Unit)
        (H := Unit) (.ok ((), (), (), 30)) (fun _ => .error 7) (fun _ _ _ _ _ => .ok ()) 3).2 ∧
    .dispatcherInvoked ∉ (mqttHandlerCallIoBoxed (E := Nat) (I := Unit) (B := Unit)
        (T := Unit) (H := Unit) (.ok ((), (), (), 30)) (fun _ => .error 7)
        (fun _ _ _ _ _ => .ok ()) 3).2 :=
  acceptor_handler_init_error_propagates (.ok ((), (), (), 30)) (fun _ => .error 7)
    (fun _ _ _ _ _ => .ok ()) 3 () () () 30 7 rfl rfl

/-- Claim C8: with no deadline present, the acceptor awaits the handshake
unconditionally: the call's outcome does not depend on how long the handshake
or handler construction take, equals the sequential
handshake-then-construction-then-Dispatcher body of the plain `IoBoxed` call,
never takes a timeout path, and propagates a handshake error unchanged. -/
theorem acceptor_no_deadline_waits_unconditionally {E I B T H : Type}
    (hsTime nsTime hsTime2 nsTime2 : Nat) (hs : Except E (I × B × T × Nat))
    (mk : T → Except E H) (disp : I → B → H → Nat → Nat → Except E Unit) (dt : Nat) :
    mqttHandlerCallDelay none hsTime nsTime hs mk disp dt =
      mqttHandlerCallIoBoxed hs mk disp dt ∧
    mqttHandlerCallDelay none hsTime nsTime hs mk disp dt =
      mqttHandlerCallDelay none hsTime2 nsTime2 hs mk disp dt ∧
    .warnedTimeout ∉ (mqttHandlerCallDelay none hsTime nsTime hs mk disp dt).2 ∧
    (∀ e, hs = .error e →
      (mqttHandlerCallDelay none hsTime nsTime hs mk disp dt).1 = .error e) := by
  refine ⟨rfl, rfl, ?_, ?_⟩
  · cases hs with
    | error e => simp [mqttHandlerCallDelay]
    | ok v =>
      obtain ⟨io, codec, st, ka⟩ := v
      cases hmk : mk st with
      | error e => simp [mqttHandlerCallDelay, hmk]
      | ok h => simp [mqttHandlerCallDelay, hmk]
  · intro e he
    simp [he, mqttHandlerCallDelay]

end NtexMqtt
